import Mathlib

/-!
# Verification of the reservation-intake service

A shallow embedding of the capacity-resolution / availability /
intake-validation core of the service, together with its thin admin route
handlers, and proofs of the specified properties.

Conventions of the embedding:
* database rows are Lean structures; nullable columns are `Option`;
* the JavaScript number produced by `parseInt` may be `NaN`, modelled by
  the type `JSNum` (`.int i` for an actual integer, `.nan` for `NaN`);
* `Supabase` equality lookups on a unique key are `List.find?`;
* SQL comparison of ISO `date` values is lexicographic string comparison
  (`dateLtB` / `dateLeB` below), which coincides with chronological order
  on `YYYY-MM-DD` strings;
* HTTP handlers are pure functions from request data and store state to a
  response together with the rows they insert / the new store state.
-/

/-- JS whitespace recognised by `parseInt` / `String.prototype.trim`
(the ASCII cases, which are the ones that occur in form input). -/
def isJsSpace (c : Char) : Bool :=
  c == ' ' || c == '\t' || c == '\n' || c == '\r'

/-- Numeric value of a list of decimal digit characters. -/
def digitsToNat (l : List Char) : Nat :=
  l.foldl (fun acc c => acc * 10 + (c.toNat - 48)) 0

/-- The maximal leading run of decimal digits, as a number; `none` when the
run is empty (JS `parseInt` yields `NaN`). -/
def parseDigitRun (l : List Char) : Option Nat :=
  let ds := l.takeWhile Char.isDigit
  if ds.isEmpty then none else some (digitsToNat ds)

/-- JavaScript `parseInt(s, 10)`: skip leading whitespace, optional sign,
maximal digit run; `none` models the `NaN` result. -/
def jsParseInt (s : String) : Option Int :=
  match s.toList.dropWhile isJsSpace with
  | '-' :: rest => (parseDigitRun rest).map (fun n => -(n : Int))
  | '+' :: rest => (parseDigitRun rest).map (fun n => (n : Int))
  | l => (parseDigitRun l).map (fun n => (n : Int))

/-- JavaScript `String.prototype.trim`. -/
def jsTrim (s : String) : String :=
  (((s.toList.dropWhile isJsSpace).reverse.dropWhile isJsSpace).reverse).asString

/-- A JavaScript number as it flows out of `parseInt`: an actual integer or
`NaN`. -/
inductive JSNum
  | int (i : Int)
  | nan
  deriving DecidableEq, Repr

/-- JS `count >= max` where `count` is a genuine count and `max` may be
`NaN` (every comparison with `NaN` is false). -/
def jsGe (count : Nat) : JSNum → Bool
  | .int i => decide (i ≤ (count : Int))
  | .nan => false

/-- JS template-literal rendering of the number. -/
def jsNumToString : JSNum → String
  | .int i => toString i
  | .nan => "NaN"

/-- JS `x ?? default` applied to a nullable integer column against a
(possibly `NaN`) default. -/
def jsCoalesce (x : Option Int) (d : JSNum) : JSNum :=
  match x with
  | some v => .int v
  | none => d

/-- Function `getDefaultMax` from `lib/checkAvailability`: read
`process.env.DEFAULT_MAX_PER_GENDER`; a missing or empty (falsy) value
gives 4, otherwise `parseInt(envValue, 10)` — which is `NaN` when the
value does not start with a digit. -/
def getDefaultMax (env : Option String) : JSNum :=
  match env with
  | none => .int 4
  | some s => if s = "" then .int 4 else
      match jsParseInt s with
      | some i => .int i
      | none => .nan

/-- Number of days in a month of the proleptic Gregorian calendar. -/
def daysInMonth (y m : Nat) : Nat :=
  if m == 2 then
    if y % 4 == 0 && (y % 100 != 0 || y % 400 == 0) then 29 else 28
  else if m == 4 || m == 6 || m == 9 || m == 11 then 30
  else 31

/-- Parse a strict ISO `YYYY-MM-DD` date string into (year, month, day);
`none` models the Invalid Date that `new Date(s)` yields otherwise. -/
def parseDate (s : String) : Option (Nat × Nat × Nat) :=
  match s.toList with
  | [y1, y2, y3, y4, '-', m1, m2, '-', d1, d2] =>
    if (y1.isDigit && y2.isDigit && y3.isDigit && y4.isDigit &&
        m1.isDigit && m2.isDigit && d1.isDigit && d2.isDigit) then
      let y := digitsToNat [y1, y2, y3, y4]
      let m := digitsToNat [m1, m2]
      let d := digitsToNat [d1, d2]
      if 1 ≤ m && m ≤ 12 && 1 ≤ d && d ≤ daysInMonth y m then
        some (y, m, d)
      else none
    else none
  | _ => none

/-- Day of week of a Gregorian date by Zeller's congruence, renumbered to
the JS `Date.getDay` convention 0 = Sunday … 6 = Saturday. -/
def zellerDay (y m d : Nat) : Nat :=
  let yy := if m < 3 then y - 1 else y
  let mm := if m < 3 then m + 12 else m
  ((d + (13 * (mm + 1)) / 5 + yy + yy / 4 + yy / 400 - yy / 100) + 6) % 7

/-- Function `getWeekdayFromDate` from `lib/checkAvailability`:
`new Date(dateStr).getDay()`; `none` models the `NaN` of an invalid
date (then the weekday `.eq` lookup matches no row). -/
def getWeekdayFromDate (s : String) : Option Nat :=
  (parseDate s).map (fun t => zellerDay t.1 t.2.1 t.2.2)

/-- A `date_settings` row (the key `date` plus the nullable caps). -/
structure DateSettingRow where
  date : String
  max_male : Option Int
  max_female : Option Int
  deriving DecidableEq, Repr

/-- A `weekday_settings` row (the key `weekday` plus the nullable caps). -/
structure WeekdaySettingRow where
  weekday : Nat
  max_male : Option Int
  max_female : Option Int
  deriving DecidableEq, Repr

/-- Function `getMaxCapacity` from `lib/checkAvailability`: specific-date setting
first, weekday setting second, process default third; a null field in a
found row falls back to the default. The `.eq(..).single()` lookups on
the unique keys are `List.find?`. -/
def getMaxCapacity (env : Option String) (ds : List DateSettingRow)
    (ws : List WeekdaySettingRow) (date : String) : JSNum × JSNum :=
  let defaultMax := getDefaultMax env
  match ds.find? (fun r => r.date == date) with
  | some r => (jsCoalesce r.max_male defaultMax, jsCoalesce r.max_female defaultMax)
  | none =>
    match getWeekdayFromDate date with
    | some w =>
      match ws.find? (fun r => r.weekday == w) with
      | some r => (jsCoalesce r.max_male defaultMax, jsCoalesce r.max_female defaultMax)
      | none => (defaultMax, defaultMax)
    | none => (defaultMax, defaultMax)


/-- The gender enum (남 = male, 여 = female, 기타 = other). -/
inductive Gender
  | male
  | female
  | other
  deriving DecidableEq, Repr

/-- The application lifecycle status enum. -/
inductive Status
  | pending
  | confirmed
  | matched
  | rejected
  deriving DecidableEq, Repr

/-- An `applications` row. -/
structure Application where
  name : String
  age : Option Int
  gender : Gender
  phone : String
  kakao_id : Option String
  location : Option String
  preferred_gender : Option String
  note : Option String
  desired_date : Option String
  agree_privacy : Bool
  status : Status
  deriving DecidableEq, Repr

/-- The rows returned by the confirmed-count query of
`checkDateAvailability` / `getDateStatus`:
`status = confirmed` and `desired_date = date`. -/
def confirmedOn (apps : List Application) (date : String) : List Application :=
  apps.filter (fun a => a.status == Status.confirmed && a.desired_date == some date)

/-- The male tally of the counting loop (the `if gender === "남"` branch). -/
def maleCount (apps : List Application) (date : String) : Nat :=
  (confirmedOn apps date).countP (fun a => a.gender == Gender.male)

/-- The female tally of the counting loop (the `else if gender === "여"`
branch; gender 기타 increments neither tally). -/
def femaleCount (apps : List Application) (date : String) : Nat :=
  (confirmedOn apps date).countP (fun a => a.gender == Gender.female)

/-- The record returned by `checkDateAvailability`. -/
structure AvailabilityResult where
  isAvailable : Bool
  isMaleClosed : Bool
  isFemaleClosed : Bool
  maleCount : Nat
  femaleCount : Nat
  maxMale : JSNum
  maxFemale : JSNum
  message : Option String
  deriving DecidableEq, Repr

/-- The gender word used in the closure message. -/
def genderWord : Gender → String
  | .male => "남성"
  | .female => "여성"
  | .other => "기타"

/-- The closure message template of `checkDateAvailability`. -/
def closedMessage (date : String) (g : Gender) (count : Nat) (max : JSNum) : String :=
  "해당 날짜(" ++ date ++ ")는 " ++ genderWord g ++ " 신청이 마감되었습니다. (" ++
    toString count ++ "/" ++ jsNumToString max ++ "명)"

/-- Function `checkDateAvailability` from `lib/checkAvailability`: resolve capacity,
count confirmed applicants, compute the closure flags, and gate the
requested gender. -/
def checkDateAvailability (env : Option String) (ds : List DateSettingRow)
    (ws : List WeekdaySettingRow) (apps : List Application)
    (date : String) (gender : Gender) : AvailabilityResult :=
  let caps := getMaxCapacity env ds ws date
  let mc := maleCount apps date
  let fc := femaleCount apps date
  let mClosed := jsGe mc caps.1
  let fClosed := jsGe fc caps.2
  if gender == Gender.male && mClosed then
    { isAvailable := false, isMaleClosed := mClosed, isFemaleClosed := fClosed,
      maleCount := mc, femaleCount := fc, maxMale := caps.1, maxFemale := caps.2,
      message := some (closedMessage date Gender.male mc caps.1) }
  else if gender == Gender.female && fClosed then
    { isAvailable := false, isMaleClosed := mClosed, isFemaleClosed := fClosed,
      maleCount := mc, femaleCount := fc, maxMale := caps.1, maxFemale := caps.2,
      message := some (closedMessage date Gender.female fc caps.2) }
  else
    { isAvailable := true, isMaleClosed := mClosed, isFemaleClosed := fClosed,
      maleCount := mc, femaleCount := fc, maxMale := caps.1, maxFemale := caps.2,
      message := none }

/-- The record returned by `getDateStatus`. -/
structure DateStatus where
  maleCount : Nat
  femaleCount : Nat
  maxMale : JSNum
  maxFemale : JSNum
  isMaleClosed : Bool
  isFemaleClosed : Bool
  deriving DecidableEq, Repr

/-- Function `getDateStatus` from `lib/checkAvailability`: same capacity and counts,
without the gender-specific decision. -/
def getDateStatus (env : Option String) (ds : List DateSettingRow)
    (ws : List WeekdaySettingRow) (apps : List Application)
    (date : String) : DateStatus :=
  let caps := getMaxCapacity env ds ws date
  let mc := maleCount apps date
  let fc := femaleCount apps date
  { maleCount := mc, femaleCount := fc, maxMale := caps.1, maxFemale := caps.2,
    isMaleClosed := jsGe mc caps.1, isFemaleClosed := jsGe fc caps.2 }

/-- The request body after a successful `zod` `safeParse` of the apply
schema. `none` in an optional field is an absent field; the schema also
admits the empty string there. `agreePrivacy` has been coerced to a
boolean. A structurally invalid body corresponds to the `none` case of
the handler argument below. -/
structure ApplyData where
  name : String
  age : String
  gender : Gender
  phone : String
  kakaoId : Option String
  location : Option String
  preferredGender : Option String
  note : Option String
  desiredDate : Option String
  agreePrivacy : Bool
  website : Option String
  deriving DecidableEq, Repr

/-- The JSON response of the apply endpoint, with its HTTP status. The
`isClosed` flag is only ever emitted as `true` (absent otherwise), so a
`Bool` field with `false` for "absent" is faithful. -/
structure ApplyResponse where
  status : Nat
  ok : Bool
  message : Option String
  isClosed : Bool
  deriving DecidableEq, Repr

/-- The plain `{ok: true}` (HTTP 200) response. -/
def successResponse : ApplyResponse :=
  { status := 200, ok := true, message := none, isClosed := false }

/-- Outcome of one apply request: the response and the rows inserted into
`applications` (the store is reliable: the insert-error 500 path is not
modelled). -/
structure ApplyOutcome where
  response : ApplyResponse
  inserted : List Application
  deriving DecidableEq, Repr

/-- The honeypot condition `data.website && data.website.trim().length > 0`
(an absent or empty field is falsy). -/
def honeypotTripped (website : Option String) : Bool :=
  match website with
  | none => false
  | some s => !(s == "") && (jsTrim s).length > 0

/-- Normalization `data.desiredDate?.trim() || null`: absent stays null, a blank trim
result is coerced to null. -/
def normalizeDesiredDate (o : Option String) : Option String :=
  match o with
  | none => none
  | some s => let t := jsTrim s; if t = "" then none else some t

/-- Normalization `parseInt(data.age, 10) || null`: `NaN` is falsy, and so is a parsed
value of `0`, so both become null. -/
def normalizeAge (s : String) : Option Int :=
  match jsParseInt s with
  | none => none
  | some i => if i = 0 then none else some i

/-- Coercion `x || null` on an optional string field: absent and empty both become
null. -/
def jsOrNull (o : Option String) : Option String :=
  match o with
  | none => none
  | some s => if s = "" then none else some s

/-- The row built by the insert call of the apply handler. -/
def insertedRow (data : ApplyData) : Application :=
  { name := data.name,
    age := normalizeAge data.age,
    gender := data.gender,
    phone := data.phone,
    kakao_id := jsOrNull data.kakaoId,
    location := jsOrNull data.location,
    preferred_gender := jsOrNull data.preferredGender,
    note := jsOrNull data.note,
    desired_date := normalizeDesiredDate data.desiredDate,
    agree_privacy := data.agreePrivacy,
    status := Status.pending }

/-- The server-side closure gate of the apply handler: when a desired date
is present and the gender is 남 or 여, re-run `checkDateAvailability`;
`some resp` is the rejection response, `none` lets the insert proceed. -/
def applyAvailGate (env : Option String) (ds : List DateSettingRow)
    (ws : List WeekdaySettingRow) (apps : List Application)
    (data : ApplyData) : Option ApplyResponse :=
  match normalizeDesiredDate data.desiredDate with
  | some d =>
    if data.gender == Gender.male || data.gender == Gender.female then
      let availability := checkDateAvailability env ds ws apps d data.gender
      if !availability.isAvailable then
        some { status := 400, ok := false,
               message := some (availability.message.getD "해당 날짜는 마감되었습니다."),
               isClosed := true }
      else none
    else none
  | none => none

/-- The `POST` handler of the apply endpoint (`app/api/apply/route.ts`):
schema validation, honeypot, consent, server-side availability re-check,
then a single insert with status `pending`. A body that fails `safeParse`
is the `none` argument. -/
def applyPOST (env : Option String) (ds : List DateSettingRow)
    (ws : List WeekdaySettingRow) (apps : List Application)
    (body : Option ApplyData) : ApplyOutcome :=
  match body with
  | none =>
    { response := { status := 400, ok := false,
                    message := some "입력값을 확인해주세요.", isClosed := false },
      inserted := [] }
  | some data =>
    if honeypotTripped data.website then
      { response := { status := 200, ok := true, message := none, isClosed := false },
        inserted := [] }
    else if !data.agreePrivacy then
      { response := { status := 400, ok := false,
                      message := some "개인정보 수집/이용에 동의가 필요합니다.", isClosed := false },
        inserted := [] }
    else
      match applyAvailGate env ds ws apps data with
      | some resp => { response := resp, inserted := [] }
      | none =>
        { response := { status := 200, ok := true, message := none, isClosed := false },
          inserted := [insertedRow data] }

/-- Lexicographic strict comparison of character lists (SQL comparison of
ISO `date` strings — chronological order on `YYYY-MM-DD`). -/
def charListLt : List Char → List Char → Bool
  | [], [] => false
  | [], _ :: _ => true
  | _ :: _, [] => false
  | a :: as, b :: bs => if a < b then true else if b < a then false else charListLt as bs

/-- The Supabase `.lt` date filter. -/
def dateLtB (a b : String) : Bool := charListLt a.toList b.toList

/-- The Supabase `.gte` date filter, written `a <= b`. -/
def dateLeB (a b : String) : Bool := !(charListLt b.toList a.toList)

/-- The string `month ++ "-01"`, the inclusive lower bound of the month range. -/
def monthStart (month : String) : String := month ++ "-01"

/-- Split `month.split("-").map(Number)` on a well-formed `YYYY-MM` value;
`none` models every other input, whose `NaN` parts give an invalid
`Date` and send the handler into its 500 branch. -/
def parseMonth (s : String) : Option (Nat × Nat) :=
  match s.toList with
  | [y1, y2, y3, y4, '-', m1, m2] =>
    if y1.isDigit && y2.isDigit && y3.isDigit && y4.isDigit && m1.isDigit && m2.isDigit then
      some (digitsToNat [y1, y2, y3, y4], digitsToNat [m1, m2])
    else none
  | _ => none

/-- The decimal digit character for `n < 10`. -/
def digitChar (n : Nat) : Char := Char.ofNat (48 + n)

/-- Decimal digit characters of `n` (fuelled division loop; the fuel of 8
covers every number the date arithmetic produces). -/
def natToDigits (fuel n : Nat) : List Char :=
  match fuel with
  | 0 => []
  | fuel + 1 =>
    if n < 10 then [digitChar n]
    else natToDigits fuel (n / 10) ++ [digitChar (n % 10)]

/-- Decimal rendering of `n` left-padded with zeros to width `w`. -/
def natToPadded (w n : Nat) : String :=
  let ds := natToDigits 8 n
  (List.replicate (w - ds.length) '0' ++ ds).asString

/-- A calendar date as the ISO string `toISOString().slice(0, 10)` yields. -/
def dateToStr (y m d : Nat) : String :=
  natToPadded 4 y ++ "-" ++ natToPadded 2 m ++ "-" ++ natToPadded 2 d

/-- Bound `new Date(y, m, 1).toISOString().slice(0, 10)` under the UTC runtime
clock: the first day of the month after month `m` of the split (the JS
constructor's month argument is zero-based, so passing the one-based `m`
rolls over to the next month, carrying into the year when `m = 12`). -/
def monthEnd (month : String) : Option String :=
  (parseMonth month).map (fun t =>
    let total := t.1 * 12 + t.2
    dateToStr (total / 12) (total % 12 + 1) 1)


/-- The month-range filter on a desired date:
`gte desired_date start` and `lt desired_date end`. -/
def inMonthRange (month e d : String) : Bool :=
  dateLeB (monthStart month) d && dateLtB d e

/-- The confirmed-application query of the month branch of the
availability `GET`: `status = confirmed`, `desired_date` non-null, and
`start <= desired_date < end`. -/
def monthFilteredApps (apps : List Application) (month e : String) : List Application :=
  apps.filter (fun a =>
    a.status == Status.confirmed &&
      match a.desired_date with
      | some d => inMonthRange month e d
      | none => false)

/-- The `date_settings` range query of the month branch:
`start <= date < end`. -/
def monthFilteredSettings (ds : List DateSettingRow) (month e : String) : List DateSettingRow :=
  ds.filter (fun r => inMonthRange month e r.date)

/-- The key set `new Set([...countMap.keys(), ...settingsMap.keys()])` of
the month branch (membership is what the per-date theorems use; the
route emits the entries sorted by date). -/
def monthDates (apps : List Application) (ds : List DateSettingRow)
    (month e : String) : List String :=
  (((monthFilteredApps apps month e).filterMap (fun a => a.desired_date)) ++
    (monthFilteredSettings ds month e).map (fun r => r.date)).dedup

/-- The male tally of `countMap` at key `d`. -/
def monthMaleCount (apps : List Application) (month e d : String) : Nat :=
  (monthFilteredApps apps month e).countP
    (fun a => a.desired_date == some d && a.gender == Gender.male)

/-- The female tally of `countMap` at key `d`. -/
def monthFemaleCount (apps : List Application) (month e d : String) : Nat :=
  (monthFilteredApps apps month e).countP
    (fun a => a.desired_date == some d && a.gender == Gender.female)

/-- Lookup `settingsMap.get(d) ?? \x7bdefault, default\x7d` of the month branch: only
the date-settings rows of the range query feed the map; the weekday tier
does not appear in this handler at all. -/
def monthCapacity (env : Option String) (ds : List DateSettingRow)
    (month e d : String) : JSNum × JSNum :=
  let defaultMax := getDefaultMax env
  match (monthFilteredSettings ds month e).find? (fun r => r.date == d) with
  | some s => (jsCoalesce s.max_male defaultMax, jsCoalesce s.max_female defaultMax)
  | none => (defaultMax, defaultMax)

/-- One element of the `byDate` array of the month branch. -/
structure MonthEntry where
  date : String
  maleCount : Nat
  femaleCount : Nat
  maxMale : JSNum
  maxFemale : JSNum
  isMaleClosed : Bool
  isFemaleClosed : Bool
  deriving DecidableEq, Repr

/-- The `byDate` entry the month branch of the availability `GET` emits
for date `d`: present exactly when `d` carries a confirmed application
or a date setting inside the range; `none` for an unparsable month (the
handler's 500 path). -/
def monthEntryFor (env : Option String) (ds : List DateSettingRow)
    (apps : List Application) (month d : String) : Option MonthEntry :=
  match monthEnd month with
  | none => none
  | some e =>
    if (monthDates apps ds month e).contains d then
      let caps := monthCapacity env ds month e d
      let mc := monthMaleCount apps month e d
      let fc := monthFemaleCount apps month e d
      some { date := d, maleCount := mc, femaleCount := fc,
             maxMale := caps.1, maxFemale := caps.2,
             isMaleClosed := jsGe mc caps.1, isFemaleClosed := jsGe fc caps.2 }
    else none

/-- Function `verifyToken` of the admin routes: the `authorization` header must
start with `"Bearer "`, and the rest must equal the configured
`ADMIN_TOKEN` (`process.env.ADMIN_TOKEN ?? ""`), which must be
non-empty. `startsWith` / `slice(7)` / `===` operate on the character
list of the header. -/
def verifyToken (adminToken : String) (authHeader : Option String) : Bool :=
  match authHeader with
  | none => false
  | some h =>
    if "Bearer ".toList.isPrefixOf h.toList then
      (h.toList.drop 7 == adminToken.toList) && adminToken.length > 0
    else false

/-- A minimal admin JSON response: HTTP status and the `ok` flag. -/
structure AdminResponse where
  status : Nat
  ok : Bool
  deriving DecidableEq, Repr

/-- JSON serialization of a JS number into a nullable integer column:
`NaN` serializes to `null`. -/
def jsNumToNullable : JSNum → Option Int
  | .int i => some i
  | .nan => none

/-- The `upsert(..., {onConflict: "date"})` on `date_settings`: replace
the row with the same date, else append. -/
def upsertDateSetting (ds : List DateSettingRow) (row : DateSettingRow) :
    List DateSettingRow :=
  if ds.any (fun r => r.date == row.date) then
    ds.map (fun r => if r.date == row.date then row else r)
  else ds ++ [row]

/-- Body of the admin settings `POST` (fields may be absent). -/
structure SettingsPostBody where
  date : Option String
  maxMale : Option Int
  maxFemale : Option Int
  deriving DecidableEq, Repr

/-- The admin settings `POST` handler: token check, `!date` check (absent
or empty string is falsy), then upsert with `maxMale ?? defaultMax` /
`maxFemale ?? defaultMax`. -/
def adminSettingsPOST (adminToken : String) (authHeader : Option String)
    (env : Option String) (ds : List DateSettingRow)
    (body : SettingsPostBody) : AdminResponse × List DateSettingRow :=
  if !verifyToken adminToken authHeader then
    ({ status := 401, ok := false }, ds)
  else
    match body.date with
    | none => ({ status := 400, ok := false }, ds)
    | some d =>
      if d = "" then ({ status := 400, ok := false }, ds)
      else
        let defaultMax := getDefaultMax env
        let row : DateSettingRow :=
          { date := d,
            max_male := match body.maxMale with
              | some v => some v
              | none => jsNumToNullable defaultMax,
            max_female := match body.maxFemale with
              | some v => some v
              | none => jsNumToNullable defaultMax }
        ({ status := 200, ok := true }, upsertDateSetting ds row)

/-- The admin settings `DELETE` handler: token check, required `date`
query parameter, then delete by date. -/
def adminSettingsDELETE (adminToken : String) (authHeader : Option String)
    (ds : List DateSettingRow) (dateParam : Option String) :
    AdminResponse × List DateSettingRow :=
  if !verifyToken adminToken authHeader then
    ({ status := 401, ok := false }, ds)
  else
    match dateParam with
    | none => ({ status := 400, ok := false }, ds)
    | some d => ({ status := 200, ok := true }, ds.filter (fun r => !(r.date == d)))

/-- Body of the admin applications `PATCH` (fields may be absent). -/
structure PatchBody where
  id : Option Nat
  status : Option Status
  note : Option String
  deriving DecidableEq, Repr

/-- The admin applications `PATCH` handler over the keyed store
(`id × row`): token check, `!id || !status` check (a missing field, and
the falsy id `0`, reject), then update `status` — and `admin_note` when
the body carried a `note` — on every row with that id. The modelled
`Application` row has no `admin_note` column of its own, so the note
update is recorded alongside the row. -/
def adminApplicationsPATCH (adminToken : String) (authHeader : Option String)
    (store : List (Nat × Application × Option String)) (body : PatchBody) :
    AdminResponse × List (Nat × Application × Option String) :=
  if !verifyToken adminToken authHeader then
    ({ status := 401, ok := false }, store)
  else
    match body.id, body.status with
    | some i, some st =>
      if i == 0 then ({ status := 400, ok := false }, store)
      else
        ({ status := 200, ok := true },
          store.map (fun r =>
            if r.1 == i then
              (r.1, { r.2.1 with status := st },
                match body.note with
                | some n => some n
                | none => r.2.2)
            else r))
    | _, _ => ({ status := 400, ok := false }, store)

/-- The admin applications `DELETE` handler: token check, required `id`
query parameter, then delete by `Number(id)` (a non-numeric parameter is
`NaN` and matches no row). -/
def adminApplicationsDELETE (adminToken : String) (authHeader : Option String)
    (store : List (Nat × Application × Option String)) (idParam : Option String) :
    AdminResponse × List (Nat × Application × Option String) :=
  if !verifyToken adminToken authHeader then
    ({ status := 401, ok := false }, store)
  else
    match idParam with
    | none => ({ status := 400, ok := false }, store)
    | some s =>
      if s = "" then ({ status := 400, ok := false }, store)
      else
        match s.toNat? with
        | some n => ({ status := 200, ok := true }, store.filter (fun r => !(r.1 == n)))
        | none => ({ status := 200, ok := true }, store)

section Proofs

/-- All branches of `checkDateAvailability` carry the same counts,
capacities and closure flags. -/
lemma checkDateAvailability_fields (env : Option String) (ds : List DateSettingRow)
    (ws : List WeekdaySettingRow) (apps : List Application) (date : String) (g : Gender) :
    (checkDateAvailability env ds ws apps date g).maleCount = maleCount apps date ∧
    (checkDateAvailability env ds ws apps date g).femaleCount = femaleCount apps date ∧
    (checkDateAvailability env ds ws apps date g).maxMale = (getMaxCapacity env ds ws date).1 ∧
    (checkDateAvailability env ds ws apps date g).maxFemale = (getMaxCapacity env ds ws date).2 ∧
    (checkDateAvailability env ds ws apps date g).isMaleClosed =
      jsGe (maleCount apps date) (getMaxCapacity env ds ws date).1 ∧
    (checkDateAvailability env ds ws apps date g).isFemaleClosed =
      jsGe (femaleCount apps date) (getMaxCapacity env ds ws date).2 := by
  simp only [checkDateAvailability]
  split
  · simp
  · split <;> simp

/-- Claim C1: capacity resolution follows the three-tier precedence
date setting > weekday setting > default; a null field of a found row
falls back to the process-wide default (never to the weekday tier), the
weekday key uses the 0 = Sunday convention (2026-01-18 is a Sunday), and
when no tier applies both genders get the default. -/
theorem capacity_resolution_three_tier (env : Option String) (ds : List DateSettingRow)
    (ws : List WeekdaySettingRow) (date : String) :
    (∀ r, ds.find? (fun x => x.date == date) = some r →
      getMaxCapacity env ds ws date =
        (jsCoalesce r.max_male (getDefaultMax env), jsCoalesce r.max_female (getDefaultMax env))) ∧
    (ds.find? (fun x => x.date == date) = none →
      ∀ w r, getWeekdayFromDate date = some w →
        ws.find? (fun x => x.weekday == w) = some r →
        getMaxCapacity env ds ws date =
          (jsCoalesce r.max_male (getDefaultMax env), jsCoalesce r.max_female (getDefaultMax env))) ∧
    (ds.find? (fun x => x.date == date) = none →
      (∀ w, getWeekdayFromDate date = some w → ws.find? (fun x => x.weekday == w) = none) →
      getMaxCapacity env ds ws date = (getDefaultMax env, getDefaultMax env)) ∧
    getWeekdayFromDate "2026-01-18" = some 0 := by
  refine ⟨?_, ?_, ?_, by decide⟩
  · intro r hr
    simp only [getMaxCapacity, hr]
  · intro hds w r hw hr
    simp only [getMaxCapacity, hds, hw, hr]
  · intro hds hw
    simp only [getMaxCapacity, hds]
    cases hwd : getWeekdayFromDate date with
    | none => rfl
    | some w => simp [hw w hwd]

/-- Witness for C1: a date row `{max_male: 2, max_female: null}` with
default 4 resolves to `(2, 4)` even though a weekday row `(9, 9)` exists
for that date's weekday. -/
theorem capacity_resolution_three_tier_witness :
    getMaxCapacity none [⟨"2026-01-15", some 2, none⟩] [⟨4, some 9, some 9⟩] "2026-01-15" =
      (JSNum.int 2, JSNum.int 4) := by
  have h := (capacity_resolution_three_tier none [⟨"2026-01-15", some 2, none⟩]
    [⟨4, some 9, some 9⟩] "2026-01-15").1 ⟨"2026-01-15", some 2, none⟩ (by decide)
  simpa using h

/-- Claim C2: a gender is reported closed exactly when its confirmed count
has reached or exceeded the resolved maximum, both by
`checkDateAvailability` and by `getDateStatus`. -/
theorem closed_iff_count_ge_max (env : Option String) (ds : List DateSettingRow)
    (ws : List WeekdaySettingRow) (apps : List Application) (date : String) (g : Gender) :
    (∀ m : Int, (checkDateAvailability env ds ws apps date g).maxMale = .int m →
      ((checkDateAvailability env ds ws apps date g).isMaleClosed = true ↔
        m ≤ ((checkDateAvailability env ds ws apps date g).maleCount : Int))) ∧
    (∀ m : Int, (checkDateAvailability env ds ws apps date g).maxFemale = .int m →
      ((checkDateAvailability env ds ws apps date g).isFemaleClosed = true ↔
        m ≤ ((checkDateAvailability env ds ws apps date g).femaleCount : Int))) ∧
    (∀ m : Int, (getDateStatus env ds ws apps date).maxMale = .int m →
      ((getDateStatus env ds ws apps date).isMaleClosed = true ↔
        m ≤ ((getDateStatus env ds ws apps date).maleCount : Int))) ∧
    (∀ m : Int, (getDateStatus env ds ws apps date).maxFemale = .int m →
      ((getDateStatus env ds ws apps date).isFemaleClosed = true ↔
        m ≤ ((getDateStatus env ds ws apps date).femaleCount : Int))) := by
  obtain ⟨h1, h2, h3, h4, h5, h6⟩ := checkDateAvailability_fields env ds ws apps date g
  refine ⟨?_, ?_, ?_, ?_⟩
  · intro m hm
    rw [h3] at hm
    rw [h5, h1, hm]
    simp [jsGe]
  · intro m hm
    rw [h4] at hm
    rw [h6, h2, hm]
    simp [jsGe]
  · intro m hm
    simp only [getDateStatus] at hm ⊢
    rw [hm]
    simp [jsGe]
  · intro m hm
    simp only [getDateStatus] at hm ⊢
    rw [hm]
    simp [jsGe]

/-- A date with four confirmed male applications. -/
def fourMales : List Application :=
  List.replicate 4
    { name := "m", age := some 30, gender := Gender.male, phone := "01000000000",
      kakao_id := none, location := none, preferred_gender := none, note := none,
      desired_date := some "2026-01-15", agree_privacy := true, status := Status.confirmed }

/-- Witness for C2 at the boundary: with the default maximum 4 and exactly
4 confirmed males, the male side is closed (count equal to max closes). -/
theorem closed_iff_count_ge_max_witness :
    (checkDateAvailability none [] [] fourMales "2026-01-15" Gender.male).isMaleClosed = true :=
  ((closed_iff_count_ge_max none [] [] fourMales "2026-01-15" Gender.male).1
    4 (by decide)).mpr (by decide)

end Proofs

/-- A confirmed application of gender 기타 for `date` (fixture for the
other-gender counting property). -/
def otherConfirmedApp (date : String) : Application :=
  { name := "o", age := none, gender := Gender.other, phone := "01000000000",
    kakao_id := none, location := none, preferred_gender := none, note := none,
    desired_date := some date, agree_privacy := true, status := Status.confirmed }

/-- Claim C4: gender 기타 is counted into neither tally (prepending a
confirmed 기타 application for the very date changes neither count), the
availability check for gender 기타 always reports the date available, and
the closure flags it reports agree with the display-only
`getDateStatus`. -/
theorem other_gender_never_gated (env : Option String) (ds : List DateSettingRow)
    (ws : List WeekdaySettingRow) (apps : List Application) (date : String) :
    (checkDateAvailability env ds ws apps date Gender.other).isAvailable = true ∧
    maleCount (otherConfirmedApp date :: apps) date = maleCount apps date ∧
    femaleCount (otherConfirmedApp date :: apps) date = femaleCount apps date ∧
    (checkDateAvailability env ds ws apps date Gender.other).isMaleClosed =
      (getDateStatus env ds ws apps date).isMaleClosed ∧
    (checkDateAvailability env ds ws apps date Gender.other).isFemaleClosed =
      (getDateStatus env ds ws apps date).isFemaleClosed := by
  obtain ⟨h1, h2, h3, h4, h5, h6⟩ :=
    checkDateAvailability_fields env ds ws apps date Gender.other
  refine ⟨?_, ?_, ?_, ?_, ?_⟩
  · simp [checkDateAvailability]
  · simp [maleCount, confirmedOn, otherConfirmedApp]
  · simp [femaleCount, confirmedOn, otherConfirmedApp]
  · rw [h5]; simp [getDateStatus]
  · rw [h6]; simp [getDateStatus]

/-- Claim C5: a submission whose honeypot field is non-blank after
trimming gets the plain success response and inserts nothing. -/
theorem honeypot_silently_dropped (env : Option String) (ds : List DateSettingRow)
    (ws : List WeekdaySettingRow) (apps : List Application) (data : ApplyData)
    (h : honeypotTripped data.website = true) :
    applyPOST env ds ws apps (some data) =
      { response := successResponse, inserted := [] } := by
  simp [applyPOST, h, successResponse]

/-- A well-formed application draft (fixture; individual witnesses adjust
single fields). -/
def baseDraft : ApplyData :=
  { name := "김철수", age := "29", gender := Gender.male, phone := "01012345678",
    kakaoId := some "kakao", location := none, preferredGender := none, note := none,
    desiredDate := none, agreePrivacy := true, website := none }

/-- Witness for C5: the fixture draft with the honeypot filled is dropped
silently: `{ok: true}` and no inserted row. -/
theorem honeypot_silently_dropped_witness :
    applyPOST none [] [] [] (some { baseDraft with website := some "https://bot.example" }) =
      { response := successResponse, inserted := [] } :=
  honeypot_silently_dropped none [] [] []
    { baseDraft with website := some "https://bot.example" } (by decide)

/-- Claim C3: a structurally valid submission that passes the honeypot and
consent checks, has a non-blank desired date and gender 남 or 여, is
re-checked server-side; if the evaluator reports the date unavailable the
submission is rejected with the evaluator's message and `isClosed: true`
at HTTP 400, and no row is persisted. -/
theorem apply_rechecks_availability (env : Option String) (ds : List DateSettingRow)
    (ws : List WeekdaySettingRow) (apps : List Application) (data : ApplyData) (d : String)
    (hhp : honeypotTripped data.website = false)
    (hconsent : data.agreePrivacy = true)
    (hdate : normalizeDesiredDate data.desiredDate = some d)
    (hg : data.gender = Gender.male ∨ data.gender = Gender.female)
    (hclosed : (checkDateAvailability env ds ws apps d data.gender).isAvailable = false) :
    applyPOST env ds ws apps (some data) =
      { response :=
          { status := 400, ok := false,
            message := some ((checkDateAvailability env ds ws apps d data.gender).message.getD
              "해당 날짜는 마감되었습니다."),
            isClosed := true },
        inserted := [] } := by
  have hgb : (data.gender == Gender.male || data.gender == Gender.female) = true := by
    rcases hg with h | h <;> simp [h]
  simp [applyPOST, hhp, hconsent, applyAvailGate, hdate, hgb, hclosed]

/-- A female draft desiring 2026-01-15 (fixture for the closed-date
rejection test). -/
def femaleDraft : ApplyData :=
  { name := "이영희", age := "27", gender := Gender.female, phone := "01098765432",
    kakaoId := none, location := none, preferredGender := none, note := none,
    desiredDate := some "2026-01-15", agreePrivacy := true, website := none }

/-- Witness for C3 (the spec's end-to-end case): a date setting with
`max_female: 0` rejects a female submission for that date with
`isClosed: true` and no insert. -/
theorem apply_rechecks_availability_witness :
    applyPOST none [⟨"2026-01-15", none, some 0⟩] [] [] (some femaleDraft) =
      { response :=
          { status := 400, ok := false,
            message := some ((checkDateAvailability none [⟨"2026-01-15", none, some 0⟩] []
              [] "2026-01-15" Gender.female).message.getD "해당 날짜는 마감되었습니다."),
            isClosed := true },
        inserted := [] } :=
  apply_rechecks_availability none [⟨"2026-01-15", none, some 0⟩] [] [] femaleDraft
    "2026-01-15" (by decide) (by decide) (by decide) (Or.inr (by decide)) (by decide)

/-- A draft whose age string is `"0"` (fixture for the falsy-age
normalization). -/
def ageZeroDraft : ApplyData :=
  { name := "박민수", age := "0", gender := Gender.other, phone := "01011112222",
    kakaoId := none, location := none, preferredGender := none, note := none,
    desiredDate := none, agreePrivacy := true, website := none }

/-- Counterexample to C6 as stated: the age string `"0"` parses to the
integer 0, the submission passes every check and is inserted — but the
stored age is null, not 0 (`parseInt(age, 10) || null` coerces the falsy
0 to null). -/
theorem age_zero_stored_as_null :
    jsParseInt ageZeroDraft.age = some 0 ∧
    applyPOST none [] [] [] (some ageZeroDraft) =
      { response := successResponse, inserted := [insertedRow ageZeroDraft] } ∧
    (insertedRow ageZeroDraft).age = none := by
  refine ⟨by decide, ?_, by decide⟩
  simp [applyPOST, applyAvailGate, successResponse, ageZeroDraft, honeypotTripped,
    normalizeDesiredDate]

/-- Claim C6 as amended: on a submission that passes all checks exactly
one row is inserted, with status `pending`, desired_date the trimmed
input or null if blank, and age the parsed integer or null when the age
string is unparseable **or parses to 0** (the `|| null` coercion); on
the malformed-body, honeypot, consent-refused and closed-date paths zero
rows are inserted. -/
theorem insert_semantics (env : Option String) (ds : List DateSettingRow)
    (ws : List WeekdaySettingRow) (apps : List Application) (data : ApplyData)
    (hhp : honeypotTripped data.website = false)
    (hconsent : data.agreePrivacy = true)
    (hgate : applyAvailGate env ds ws apps data = none) :
    applyPOST env ds ws apps (some data) =
      { response := successResponse, inserted := [insertedRow data] } ∧
    (insertedRow data).status = Status.pending ∧
    (insertedRow data).desired_date = normalizeDesiredDate data.desiredDate ∧
    ((insertedRow data).age = match jsParseInt data.age with
      | some i => if i = 0 then none else some i
      | none => none) ∧
    (applyPOST env ds ws apps none).inserted = [] ∧
    (∀ data' : ApplyData, honeypotTripped data'.website = true →
      (applyPOST env ds ws apps (some data')).inserted = []) ∧
    (∀ data' : ApplyData, data'.agreePrivacy = false →
      (applyPOST env ds ws apps (some data')).inserted = []) ∧
    (∀ (data' : ApplyData) (r : ApplyResponse),
      applyAvailGate env ds ws apps data' = some r →
      (applyPOST env ds ws apps (some data')).inserted = []) := by
  refine ⟨?_, rfl, rfl, ?_, rfl, ?_, ?_, ?_⟩
  · simp [applyPOST, hhp, hconsent, hgate, successResponse]
  · cases h : jsParseInt data.age <;> simp [insertedRow, normalizeAge, h]
  · intro data' h
    simp [applyPOST, h]
  · intro data' h
    by_cases hp : honeypotTripped data'.website = true
    · simp [applyPOST, hp]
    · simp [applyPOST, hp, h]
  · intro data' r h
    by_cases hp : honeypotTripped data'.website = true
    · simp [applyPOST, hp]
    · by_cases hc : data'.agreePrivacy = true
      · simp [applyPOST, hp, hc, h]
      · simp [applyPOST, hp, hc]

/-- Witness for the amended C6: the fixture draft passes all checks and
inserts exactly its normalized row. -/
theorem insert_semantics_witness :
    applyPOST none [] [] [] (some baseDraft) =
      { response := successResponse, inserted := [insertedRow baseDraft] } :=
  (insert_semantics none [] [] [] baseDraft (by decide) (by decide) (by decide)).1

/-- Coalescing `x ?? d` with an integer default and non-negative stored values is a
non-negative integer. -/
lemma jsCoalesce_nonneg (x : Option Int) (d : Int) (hd0 : 0 ≤ d)
    (hx : ∀ v, x = some v → 0 ≤ v) :
    ∃ a : Int, jsCoalesce x (JSNum.int d) = JSNum.int a ∧ 0 ≤ a := by
  cases x with
  | some v => exact ⟨v, rfl, hx v rfl⟩
  | none => exact ⟨d, rfl, hd0⟩

/-- The resolution always returns either the coalesced fields of a stored
row or the default pair. -/
lemma getMaxCapacity_shape (env : Option String) (ds : List DateSettingRow)
    (ws : List WeekdaySettingRow) (date : String) :
    (∃ r ∈ ds, getMaxCapacity env ds ws date =
      (jsCoalesce r.max_male (getDefaultMax env), jsCoalesce r.max_female (getDefaultMax env))) ∨
    (∃ r ∈ ws, getMaxCapacity env ds ws date =
      (jsCoalesce r.max_male (getDefaultMax env), jsCoalesce r.max_female (getDefaultMax env))) ∨
    getMaxCapacity env ds ws date = (getDefaultMax env, getDefaultMax env) := by
  unfold getMaxCapacity
  cases hfd : ds.find? (fun r => r.date == date) with
  | some r => exact Or.inl ⟨r, List.mem_of_find?_eq_some hfd, rfl⟩
  | none =>
    dsimp only
    cases hwd : getWeekdayFromDate date with
    | none => exact Or.inr (Or.inr rfl)
    | some w =>
      dsimp only
      cases hfw : ws.find? (fun r => r.weekday == w) with
      | some r => exact Or.inr (Or.inl ⟨r, List.mem_of_find?_eq_some hfw, rfl⟩)
      | none => exact Or.inr (Or.inr rfl)

/-- Counterexample to C7 as stated: a configured default of `"-1"` makes
the resolved capacities the negative integer −1 for a date with no
overrides, and a configured default of `"x"` is `NaN` — no concrete
integer at all. -/
theorem negative_default_capacity :
    getMaxCapacity (some "-1") [] [] "2026-01-15" = (JSNum.int (-1), JSNum.int (-1)) ∧
    ¬((0 : Int) ≤ -1) ∧
    getDefaultMax (some "x") = JSNum.nan := by
  refine ⟨by decide, by decide, by decide⟩

/-- Claim C7 as amended: for every date the resolution produces concrete
values (no consumer observes "no limit"); the default is 4 when the
configuration value is unset; and the resolved values are non-negative
integers provided the configured default is a non-negative integer and
all stored override values are non-negative — the code itself does not
clamp a negative or unparseable configured default. -/
theorem resolved_capacity_nonneg (env : Option String) (ds : List DateSettingRow)
    (ws : List WeekdaySettingRow) (date : String) (dflt : Int)
    (hd : getDefaultMax env = JSNum.int dflt) (hd0 : 0 ≤ dflt)
    (hds : ∀ r ∈ ds, (∀ v, r.max_male = some v → 0 ≤ v) ∧ (∀ v, r.max_female = some v → 0 ≤ v))
    (hws : ∀ r ∈ ws, (∀ v, r.max_male = some v → 0 ≤ v) ∧ (∀ v, r.max_female = some v → 0 ≤ v)) :
    (∃ a : Int, (getMaxCapacity env ds ws date).1 = JSNum.int a ∧ 0 ≤ a) ∧
    (∃ b : Int, (getMaxCapacity env ds ws date).2 = JSNum.int b ∧ 0 ≤ b) ∧
    getDefaultMax none = JSNum.int 4 := by
  obtain ⟨r, hmem, heq⟩ | ⟨r, hmem, heq⟩ | heq := getMaxCapacity_shape env ds ws date
  · obtain ⟨hm, hf⟩ := hds r hmem
    rw [hd] at heq
    refine ⟨?_, ?_, rfl⟩
    · rw [heq]
      exact jsCoalesce_nonneg r.max_male dflt hd0 hm
    · rw [heq]
      exact jsCoalesce_nonneg r.max_female dflt hd0 hf
  · obtain ⟨hm, hf⟩ := hws r hmem
    rw [hd] at heq
    refine ⟨?_, ?_, rfl⟩
    · rw [heq]
      exact jsCoalesce_nonneg r.max_male dflt hd0 hm
    · rw [heq]
      exact jsCoalesce_nonneg r.max_female dflt hd0 hf
  · rw [hd] at heq
    rw [heq]
    exact ⟨⟨dflt, rfl, hd0⟩, ⟨dflt, rfl, hd0⟩, rfl⟩

/-- Witness for the amended C7: non-negative settings and the unset
default resolve 2026-01-15 to concrete non-negative integers. -/
theorem resolved_capacity_nonneg_witness :
    (∃ a : Int, (getMaxCapacity none [⟨"2026-01-15", some 2, none⟩] [] "2026-01-15").1 =
      JSNum.int a ∧ 0 ≤ a) ∧
    (∃ b : Int, (getMaxCapacity none [⟨"2026-01-15", some 2, none⟩] [] "2026-01-15").2 =
      JSNum.int b ∧ 0 ≤ b) ∧
    getDefaultMax none = JSNum.int 4 :=
  resolved_capacity_nonneg none [⟨"2026-01-15", some 2, none⟩] [] "2026-01-15" 4
    (by decide) (by decide) (by decide) (by decide)

/-- Claim C9: the month aggregation filters exactly the confirmed rows
with a non-null desired date in the half-open interval `[start, end)`
(`start` the first day of the month, `end` the first day of the next
month), the per-date tallies count exactly those rows by gender, and the
bounds behave as claimed on the concrete month 2026-01: its first and
last days are inside, the first day of 2026-02 is not. -/
theorem month_aggregation_halfopen (apps : List Application) (month e : String)
    (_hme : monthEnd month = some e) :
    (∀ a : Application, a ∈ monthFilteredApps apps month e ↔
      (a ∈ apps ∧ a.status = Status.confirmed ∧
        ∃ d, a.desired_date = some d ∧
          dateLeB (monthStart month) d = true ∧ dateLtB d e = true)) ∧
    (∀ d, monthMaleCount apps month e d =
      apps.countP (fun a => a.status == Status.confirmed && a.desired_date == some d &&
        dateLeB (monthStart month) d && dateLtB d e && a.gender == Gender.male)) ∧
    (∀ d, monthFemaleCount apps month e d =
      apps.countP (fun a => a.status == Status.confirmed && a.desired_date == some d &&
        dateLeB (monthStart month) d && dateLtB d e && a.gender == Gender.female)) ∧
    monthEnd "2026-01" = some "2026-02-01" ∧
    inMonthRange "2026-01" "2026-02-01" "2026-01-01" = true ∧
    inMonthRange "2026-01" "2026-02-01" "2026-01-31" = true ∧
    inMonthRange "2026-01" "2026-02-01" "2026-02-01" = false := by
  refine ⟨?_, ?_, ?_, by decide, by decide, by decide, by decide⟩
  · intro a
    rw [monthFilteredApps, List.mem_filter]
    constructor
    · rintro ⟨hmem, hpred⟩
      rw [Bool.and_eq_true] at hpred
      obtain ⟨hst, hdd⟩ := hpred
      refine ⟨hmem, by simpa using hst, ?_⟩
      cases hd : a.desired_date with
      | none => rw [hd] at hdd; cases hdd
      | some d =>
        rw [hd] at hdd
        simp only [inMonthRange, Bool.and_eq_true] at hdd
        exact ⟨d, rfl, hdd.1, hdd.2⟩
    · rintro ⟨hmem, hst, d, hd, hle, hlt⟩
      refine ⟨hmem, ?_⟩
      rw [Bool.and_eq_true]
      exact ⟨by simp [hst], by rw [hd]; simp only [inMonthRange, Bool.and_eq_true]; exact ⟨hle, hlt⟩⟩
  · intro d
    rw [monthMaleCount, monthFilteredApps, List.countP_filter]
    apply List.countP_congr
    intro a _
    cases hd : a.desired_date with
    | none => simp [hd]
    | some d' =>
      by_cases hdd : d' = d
      · subst hdd
        simp only [hd, inMonthRange]
        cases a.status == Status.confirmed <;>
          cases dateLeB (monthStart month) d' <;>
          cases dateLtB d' e <;>
          cases a.gender == Gender.male <;> simp
      · simp [hd, hdd]
  · intro d
    rw [monthFemaleCount, monthFilteredApps, List.countP_filter]
    apply List.countP_congr
    intro a _
    cases hd : a.desired_date with
    | none => simp [hd]
    | some d' =>
      by_cases hdd : d' = d
      · subst hdd
        simp only [hd, inMonthRange]
        cases a.status == Status.confirmed <;>
          cases dateLeB (monthStart month) d' <;>
          cases dateLtB d' e <;>
          cases a.gender == Gender.female <;> simp
      · simp [hd, hdd]

/-- Two confirmed male applications, one on the last day of 2026-01 and
one on the first day of 2026-02 (fixture for the month boundary). -/
def boundaryApps : List Application :=
  [{ name := "a", age := some 30, gender := Gender.male, phone := "01000000001",
     kakao_id := none, location := none, preferred_gender := none, note := none,
     desired_date := some "2026-01-31", agree_privacy := true, status := Status.confirmed },
   { name := "b", age := some 31, gender := Gender.male, phone := "01000000002",
     kakao_id := none, location := none, preferred_gender := none, note := none,
     desired_date := some "2026-02-01", agree_privacy := true, status := Status.confirmed }]

/-- Witness for C9: over the boundary fixture the 2026-01 aggregation
counts the 2026-01-31 row and equals the claimed half-open count. -/
theorem month_aggregation_halfopen_witness :
    monthMaleCount boundaryApps "2026-01" "2026-02-01" "2026-01-31" =
      boundaryApps.countP (fun a => a.status == Status.confirmed &&
        a.desired_date == some "2026-01-31" &&
        dateLeB (monthStart "2026-01") "2026-01-31" && dateLtB "2026-01-31" "2026-02-01" &&
        a.gender == Gender.male) :=
  (month_aggregation_halfopen boundaryApps "2026-01" "2026-02-01" (by decide)).2.1 "2026-01-31"

/-- Claim C10: an admin request is authorized iff its authorization header
is exactly `"Bearer "` followed by the configured token and that token is
non-empty; an empty configured token denies everything, and an
unauthorized mutating request gets a 401 and leaves the store unchanged
(settings upsert/delete, application update/delete). -/
theorem admin_auth (t : String) (h : Option String) :
    (verifyToken t h = true ↔ h = some ("Bearer " ++ t) ∧ t ≠ "") ∧
    (t = "" → verifyToken t h = false) ∧
    (∀ (env : Option String) (ds : List DateSettingRow) (body : SettingsPostBody),
      verifyToken t h = false →
      adminSettingsPOST t h env ds body = ({ status := 401, ok := false }, ds)) ∧
    (∀ (ds : List DateSettingRow) (p : Option String),
      verifyToken t h = false →
      adminSettingsDELETE t h ds p = ({ status := 401, ok := false }, ds)) ∧
    (∀ (store : List (Nat × Application × Option String)) (body : PatchBody),
      verifyToken t h = false →
      adminApplicationsPATCH t h store body = ({ status := 401, ok := false }, store)) ∧
    (∀ (store : List (Nat × Application × Option String)) (p : Option String),
      verifyToken t h = false →
      adminApplicationsDELETE t h store p = ({ status := 401, ok := false }, store)) := by
  have hiff : verifyToken t h = true ↔ h = some ("Bearer " ++ t) ∧ t ≠ "" := by
    constructor
    · intro hv
      cases h with
      | none => simp [verifyToken] at hv
      | some s =>
        simp only [verifyToken] at hv
        by_cases hpre : "Bearer ".toList.isPrefixOf s.toList
        · rw [if_pos hpre, Bool.and_eq_true] at hv
          obtain ⟨h1, h2⟩ := hv
          have h1' : s.toList.drop 7 = t.toList := by
            exact beq_iff_eq.mp h1
          have hp : "Bearer ".toList <+: s.toList := List.isPrefixOf_iff_prefix.mp hpre
          have happ := List.prefix_iff_eq_append.mp hp
          have hlen7 : ("Bearer ".toList).length = 7 := rfl
          rw [hlen7, h1'] at happ
          constructor
          · have hs : s = "Bearer " ++ t := String.ext happ.symm
            rw [hs]
          · intro ht
            subst ht
            simp at h2
        · rw [if_neg hpre] at hv
          cases hv
    · rintro ⟨rfl, ht⟩
      simp only [verifyToken]
      have hpre : "Bearer ".toList.isPrefixOf ("Bearer " ++ t).toList := by
        apply List.isPrefixOf_iff_prefix.mpr
        exact ⟨t.toList, rfl⟩
      rw [if_pos hpre, Bool.and_eq_true]
      constructor
      · exact beq_iff_eq.mpr (List.drop_left "Bearer ".toList t.toList)
      · cases t with
        | mk l =>
          cases l with
          | nil => exact absurd rfl ht
          | cons c cs => simp [String.length]
  refine ⟨hiff, ?_, ?_, ?_, ?_, ?_⟩
  · intro ht
    cases hv : verifyToken t h with
    | false => rfl
    | true => exact absurd (hiff.mp hv).2 (by simp [ht])
  · intro env ds body hv
    simp [adminSettingsPOST, hv]
  · intro ds p hv
    simp [adminSettingsDELETE, hv]
  · intro store body hv
    simp [adminApplicationsPATCH, hv]
  · intro store p hv
    simp [adminApplicationsDELETE, hv]

/-- Witness for C10: the exact bearer header is accepted, and a wrong
token gets a 401 from the settings delete with the row still present. -/
theorem admin_auth_witness :
    verifyToken "hunter2" (some "Bearer hunter2") = true ∧
    adminSettingsDELETE "hunter2" (some "Bearer wrong")
        [⟨"2026-01-15", some 2, none⟩] (some "2026-01-15") =
      ({ status := 401, ok := false }, [⟨"2026-01-15", some 2, none⟩]) :=
  ⟨(admin_auth "hunter2" (some "Bearer hunter2")).1.mpr ⟨rfl, by decide⟩,
   (admin_auth "hunter2" (some "Bearer wrong")).2.2.2.1
     [⟨"2026-01-15", some 2, none⟩] (some "2026-01-15") (by decide)⟩

/-- Lemma: `find?` commutes with a `filter` that every `find?`-match passes. -/
lemma find?_filter_of_imp {α : Type} (l : List α) (p q : α → Bool)
    (h : ∀ x, p x = true → q x = true) :
    (l.filter q).find? p = l.find? p := by
  induction l with
  | nil => rfl
  | cons a t ih =>
    cases hq : q a with
    | true =>
      rw [List.filter_cons_of_pos hq]
      cases hp : p a with
      | true => rw [List.find?_cons_of_pos _ hp, List.find?_cons_of_pos _ hp]
      | false =>
        rw [List.find?_cons_of_neg _ (by simp [hp]), List.find?_cons_of_neg _ (by simp [hp]), ih]
    | false =>
      have hp : p a = false := by
        cases hpa : p a with
        | true => rw [h a hpa] at hq; cases hq
        | false => rfl
      rw [List.filter_cons_of_neg (by simp [hq]), List.find?_cons_of_neg _ (by simp [hp]), ih]

/-- Every key of the month view lies inside the month's half-open range. -/
lemma mem_monthDates_inRange (apps : List Application) (ds : List DateSettingRow)
    (month e d : String) (h : d ∈ monthDates apps ds month e) :
    inMonthRange month e d = true := by
  unfold monthDates at h
  rw [List.mem_dedup, List.mem_append] at h
  rcases h with h | h
  · obtain ⟨a, ha, hd⟩ := List.mem_filterMap.mp h
    obtain ⟨-, hpred⟩ := List.mem_filter.mp ha
    rw [Bool.and_eq_true] at hpred
    obtain ⟨-, hdd⟩ := hpred
    rw [hd] at hdd
    exact hdd
  · obtain ⟨r, hr, rfl⟩ := List.mem_map.mp h
    obtain ⟨-, hpred⟩ := List.mem_filter.mp hr
    exact hpred

/-- Inside the range, the month view's capacity lookup agrees with the
single-date resolution run with an empty weekday table. -/
lemma monthCapacity_eq_dateOnly (env : Option String) (ds : List DateSettingRow)
    (month e d : String) (hd : inMonthRange month e d = true) :
    monthCapacity env ds month e d = getMaxCapacity env ds [] d := by
  unfold monthCapacity getMaxCapacity monthFilteredSettings
  rw [find?_filter_of_imp ds (fun r => r.date == d) (fun r => inMonthRange month e r.date)
    (fun r hr => by
      have h2 : r.date = d := eq_of_beq (by simpa using hr)
      simp only []
      rw [h2]
      exact hd)]
  cases hfd : ds.find? (fun r => r.date == d) with
  | some r => rfl
  | none =>
    dsimp only
    cases getWeekdayFromDate d <;> rfl

/-- A single confirmed male application on 2026-01-15 (fixture for the
month-view/single-date divergence). -/
def oneMaleJan15 : List Application :=
  [{ name := "c", age := some 33, gender := Gender.male, phone := "01000000003",
     kakao_id := none, location := none, preferred_gender := none, note := none,
     desired_date := some "2026-01-15", agree_privacy := true, status := Status.confirmed }]

/-- Claim C8: every entry of the month availability view resolves its
capacities from the date settings and the process default only — exactly
the single-date resolution with the weekday tier emptied — and on a
concrete store whose only override is a weekday setting the month view
reports default capacities and flags that differ from the single-date
resolution of the same date. -/
theorem month_view_ignores_weekday_tier :
    (∀ (env : Option String) (ds : List DateSettingRow) (apps : List Application)
        (month d : String) (entry : MonthEntry),
      monthEntryFor env ds apps month d = some entry →
      entry.maxMale = (getMaxCapacity env ds [] d).1 ∧
      entry.maxFemale = (getMaxCapacity env ds [] d).2) ∧
    (getDateStatus none [] [⟨4, some 1, some 1⟩] oneMaleJan15 "2026-01-15").maxMale =
      JSNum.int 1 ∧
    (getDateStatus none [] [⟨4, some 1, some 1⟩] oneMaleJan15 "2026-01-15").isMaleClosed =
      true ∧
    monthEntryFor none [] oneMaleJan15 "2026-01" "2026-01-15" =
      some { date := "2026-01-15", maleCount := 1, femaleCount := 0,
             maxMale := JSNum.int 4, maxFemale := JSNum.int 4,
             isMaleClosed := false, isFemaleClosed := false } := by
  refine ⟨?_, by decide, by decide, by decide⟩
  intro env ds apps month d entry h
  unfold monthEntryFor at h
  cases hme : monthEnd month with
  | none => rw [hme] at h; cases h
  | some e =>
    rw [hme] at h
    dsimp only at h
    cases hmem : (monthDates apps ds month e).contains d with
    | false => rw [hmem] at h; simp at h
    | true =>
      rw [hmem] at h
      simp only [if_true] at h
      have hd : d ∈ monthDates apps ds month e := by
        have := hmem
        simpa [List.contains] using List.elem_iff.mp this
      have hrange := mem_monthDates_inRange apps ds month e d hd
      have hcap := monthCapacity_eq_dateOnly env ds month e d hrange
      cases h
      constructor
      · show (monthCapacity env ds month e d).1 = (getMaxCapacity env ds [] d).1
        rw [hcap]
      · show (monthCapacity env ds month e d).2 = (getMaxCapacity env ds [] d).2
        rw [hcap]

/-- Witness for C8: the concrete month entry of the fixture resolves to
the same capacities as the weekday-free single-date resolution. -/
theorem month_view_ignores_weekday_tier_witness :
    (({ date := "2026-01-15", maleCount := 1, femaleCount := 0,
        maxMale := JSNum.int 4, maxFemale := JSNum.int 4,
        isMaleClosed := false, isFemaleClosed := false } : MonthEntry)).maxMale =
      (getMaxCapacity none [] [] "2026-01-15").1 :=
  (month_view_ignores_weekday_tier.1 none [] oneMaleJan15 "2026-01" "2026-01-15"
    { date := "2026-01-15", maleCount := 1, femaleCount := 0,
      maxMale := JSNum.int 4, maxFemale := JSNum.int 4,
      isMaleClosed := false, isFemaleClosed := false } (by decide)).1
